import Mathlib

/-!
Shallow embedding of the Game-of-Life engine in `src/game_of_life/mod.rs`
(bevy_ecs based). Cells are records of position, alive state, and a cached
neighbor count; the engine runs a fixed 5-system pipeline per generation.
Machine integers: grid dimensions and the cell counter are `u32` (modelled
as `Nat` with explicit `% 2^32` where overflow matters), positions are
`i32` (modelled as `Int` via a wrapping cast), neighbor counts are `u8`
(modelled as `Nat`; the count never exceeds 8 so no wrap occurs).
-/

/-- `Position` component: integer grid coordinate (i32 fields). -/
structure Position where
  x : Int
  y : Int
deriving DecidableEq, Repr

/-- A cell entity: the `CellBundle` of `Position`, `State(bool)` and
`Neighbors(u8)`. -/
structure Cell where
  position : Position
  state : Bool
  neighbors : Nat
deriving DecidableEq, Repr

/-- The `Grid` resource: `width` and `height` are u32 values. -/
structure Grid where
  width : Nat
  height : Nat
deriving DecidableEq, Repr

/-- The `CellPositions` resource: a coordinate-keyed map from grid
coordinate to alive state. The Rust `HashMap<(i32,i32),bool>` is modelled
as an association list queried with `List.lookup`; cell positions are
unique, so lookup agrees with the hash map for any insertion order. -/
abbrev CellPositionsMap : Type := List ((Int × Int) × Bool)

/-- The mutable world state the scheduled systems touch: the cell store,
the `CellPositions` resource, and the `CellsChanged` flag. -/
structure EngineState where
  cells : List Cell
  cellPositions : CellPositionsMap
  cellsChanged : Bool
deriving DecidableEq

/-- Wrapping cast of a u32 value to i32 (`x as i32` in Rust). -/
def toI32 (n : Nat) : Int :=
  if n % 2 ^ 32 < 2 ^ 31 then ((n % 2 ^ 32 : Nat) : Int)
  else ((n % 2 ^ 32 : Nat) : Int) - 2 ^ 32

/-- `rebuild_cell_positions` system: if the `CellsChanged` flag is unset it
returns immediately; otherwise it clears the map, inserts `(x,y) ↦ state`
for every cell, and resets the flag. -/
def rebuild_cell_positions (s : EngineState) : EngineState :=
  if !s.cellsChanged then s
  else
    { s with
      cellPositions := s.cells.map (fun c => ((c.position.x, c.position.y), c.state))
      cellsChanged := false }

/-- The nested `for dx in -1..=1 { for dy in -1..=1 { ... } }` loop order
of `update_neighbors_brute_force_system`, with the `dx == 0 && dy == 0`
pair skipped by the `continue` inside the loop body. -/
def loopOffsets : List (Int × Int) :=
  [(-1, -1), (-1, 0), (-1, 1), (0, -1), (0, 0), (0, 1), (1, -1), (1, 0), (1, 1)]

/-- One iteration of the inner loop body of
`update_neighbors_brute_force_system`: skip `(0,0)`, bounds-check the
offset coordinate against the grid, probe the `CellPositions` map, and
increment the count on a live hit. The source compares against
`grid.width as i32` and `grid.height as i32`: a wrapping cast, so for
dimensions at or above `2^31` the bound is negative and the check always
fails. -/
def neighborLoopBody (grid : Grid) (m : CellPositionsMap) (pos : Position)
    (count : Nat) (d : Int × Int) : Nat :=
  if d.1 = 0 ∧ d.2 = 0 then count
  else
    let x := pos.x + d.1
    let y := pos.y + d.2
    if 0 ≤ x ∧ x < toI32 grid.width ∧ 0 ≤ y ∧ y < toI32 grid.height then
      match m.lookup (x, y) with
      | some true => count + 1
      | _ => count
    else count

/-- The per-cell count computed by `update_neighbors_brute_force_system`.
The source writes `neighbors.0 = count` at the end of every `dx`
iteration; since `count` only accumulates, the value left after the last
iteration is the full fold over all nine offsets. -/
def neighborCountAt (grid : Grid) (m : CellPositionsMap) (pos : Position) : Nat :=
  loopOffsets.foldl (neighborLoopBody grid m pos) 0

/-- `update_neighbors_brute_force_system`: a parallel pass writing, into
each cell, the count of live map entries among its in-grid Moore
neighbors. Each cell's new value depends only on its own position, the
grid, and the read-only `CellPositions` map. -/
def update_neighbors_brute_force_system (grid : Grid) (s : EngineState) : EngineState :=
  { s with
    cells := s.cells.map (fun c =>
      { c with neighbors := neighborCountAt grid s.cellPositions c.position }) }

/-- The per-cell rule of `update_cells_system`:
`(true,2) | (true,3)` keep the state, `(false,3)` becomes alive, every
other combination becomes dead. -/
def cellStep (state : Bool) (neighbors : Nat) : Bool :=
  match state, neighbors with
  | true, 2 => true
  | true, 3 => true
  | false, 3 => true
  | _, _ => false

/-- `update_cells_system`: applies `cellStep` to every cell and raises the
`CellsChanged` flag whenever some cell's new state differs from its
previous state (the flag is never lowered here). -/
def update_cells_system (s : EngineState) : EngineState :=
  { s with
    cells := s.cells.map (fun c => { c with state := cellStep c.state c.neighbors })
    cellsChanged :=
      s.cellsChanged || s.cells.any (fun c => cellStep c.state c.neighbors != c.state) }

/-- The chained schedule built in `initialize` (and in each test):
rebuild → count → rule step → rebuild → count, in strict order. -/
def schedule_run (grid : Grid) (s : EngineState) : EngineState :=
  update_neighbors_brute_force_system grid
    (rebuild_cell_positions
      (update_cells_system
        (update_neighbors_brute_force_system grid
          (rebuild_cell_positions s))))

/-- `spawn_cells`: spawns `width * height` cells (u32 product, wrapping),
cell `i` at position `(i % width, i / width)` (u32 arithmetic cast to
i32), all alive, neighbor count defaulted to 0. -/
def spawn_cells (width height : Nat) : List Cell :=
  (List.range (width * height % 2 ^ 32)).map (fun i =>
    { position := { x := toI32 (i % width), y := toI32 (i / width) }
      state := true
      neighbors := 0 })

/-- `spawn_block_cells`: identical cell population to `spawn_cells`
(every cell alive); the source differs only in console printing. -/
def spawn_block_cells (width height : Nat) : List Cell :=
  (List.range (width * height % 2 ^ 32)).map (fun i =>
    { position := { x := toI32 (i % width), y := toI32 (i / width) }
      state := true
      neighbors := 0 })

/-- `spawn_blinker_cells`: one cell per coordinate, alive exactly at
`(1,0)`, `(1,1)`, `(1,2)`. -/
def spawn_blinker_cells (width height : Nat) : List Cell :=
  (List.range (width * height % 2 ^ 32)).map (fun i =>
    let x := toI32 (i % width)
    let y := toI32 (i / width)
    { position := { x := x, y := y }
      state := (x == 1 && y == 0) || (x == 1 && y == 1) || (x == 1 && y == 2)
      neighbors := 0 })

/-- The world state `initialize` builds before running the schedule:
empty `CellPositions` map, `CellsChanged(true)`, cells from
`spawn_cells`. -/
def initial_state (width height : Nat) : EngineState :=
  { cells := spawn_cells width height
    cellPositions := []
    cellsChanged := true }

/-- The generation loop of `initialize`: `schedule.run` applied
`generations` times, with no early termination. -/
def run_generations (grid : Grid) : Nat → EngineState → EngineState
  | 0, s => s
  | n + 1, s => run_generations grid n (schedule_run grid s)

/-- The whole-run entry point (named `initialize` in the source, a
reserved word in Lean): build the world, then run the schedule
`generations` times. -/
def initRun (width height generations : Nat) : EngineState :=
  run_generations { width := width, height := height } generations
    (initial_state width height)

/-! ### Helper lemmas: characterizing the neighbor-count fold -/

/-- The 8 Moore-neighborhood offsets, in the loop order of the source
(with the skipped `(0,0)` removed). -/
def mooreOffsets : List (Int × Int) :=
  [(-1, -1), (-1, 0), (-1, 1), (0, -1), (0, 1), (1, -1), (1, 0), (1, 1)]

/-- Whether coordinate `q` is recorded as alive in the `CellPositions`
map. -/
def aliveAt (m : CellPositionsMap) (q : Int × Int) : Bool :=
  m.lookup q == some true

/-- Whether coordinate `q` lies inside the grid bounds checked by
`update_neighbors_brute_force_system`, with the u32 dimensions cast to
i32 by the source's wrapping `as` cast. -/
def inGrid (grid : Grid) (q : Int × Int) : Prop :=
  0 ≤ q.1 ∧ q.1 < toI32 grid.width ∧ 0 ≤ q.2 ∧ q.2 < toI32 grid.height

instance (grid : Grid) (q : Int × Int) : Decidable (inGrid grid q) := by
  unfold inGrid
  infer_instance

/-- The boolean condition under which one loop iteration increments the
count: a non-`(0,0)` offset whose coordinate is in the grid bounds and
maps to a live entry. -/
def hitB (grid : Grid) (m : CellPositionsMap) (pos : Position) (d : Int × Int) : Bool :=
  !(d.1 == 0 && d.2 == 0) &&
    decide (inGrid grid (pos.x + d.1, pos.y + d.2)) &&
    aliveAt m (pos.x + d.1, pos.y + d.2)

lemma neighborLoopBody_eq_ite (grid : Grid) (m : CellPositionsMap) (pos : Position)
    (n : Nat) (d : Int × Int) :
    neighborLoopBody grid m pos n d = if hitB grid m pos d then n + 1 else n := by
  rcases d with ⟨dx, dy⟩
  unfold neighborLoopBody hitB aliveAt inGrid
  by_cases h0 : dx = 0 ∧ dy = 0
  · simp [h0]
  · rw [if_neg h0]
    by_cases hb : 0 ≤ pos.x + dx ∧ pos.x + dx < toI32 grid.width ∧
        0 ≤ pos.y + dy ∧ pos.y + dy < toI32 grid.height
    · rw [if_pos hb]
      have h0' : ¬dx = 0 ∨ ¬dy = 0 := not_and_or.mp h0
      rcases hlk : List.lookup (pos.x + dx, pos.y + dy) m with _ | b
      · simp [hlk, h0', hb]
      · rcases b with _ | _ <;> simp [hlk, h0', hb]
    · rw [if_neg hb]
      simp [h0, hb]

lemma foldl_neighborLoopBody (grid : Grid) (m : CellPositionsMap) (pos : Position) :
    ∀ (l : List (Int × Int)) (n : Nat),
      l.foldl (neighborLoopBody grid m pos) n = n + (l.filter (hitB grid m pos)).length := by
  intro l
  induction l with
  | nil => intro n; simp
  | cons d t ih =>
    intro n
    rw [List.foldl_cons, neighborLoopBody_eq_ite, List.filter_cons]
    by_cases hd : hitB grid m pos d
    · rw [if_pos hd, if_pos hd, ih]
      simp
      omega
    · rw [if_neg hd, if_neg hd, ih]

/-- The source's nine-offset fold equals the filtered count over the 8
Moore offsets of the bounds-checked live-lookup condition. -/
lemma neighborCountAt_eq_moore_bounds (grid : Grid) (m : CellPositionsMap) (pos : Position) :
    neighborCountAt grid m pos =
      (mooreOffsets.filter (fun d =>
        decide (inGrid grid (pos.x + d.1, pos.y + d.2)) &&
          aliveAt m (pos.x + d.1, pos.y + d.2))).length := by
  rw [neighborCountAt, foldl_neighborLoopBody, Nat.zero_add]
  have hmoore : mooreOffsets = loopOffsets.filter (fun d => !(d.1 == 0 && d.2 == 0)) := by
    decide
  rw [hmoore, List.filter_filter]
  congr 1
  refine List.filter_congr (fun d _ => ?_)
  simp [hitB, Bool.and_assoc, Bool.and_comm, Bool.and_left_comm]

lemma not_inGrid_of_neg (grid : Grid) (q : Int × Int) (h : q.1 < 0 ∨ q.2 < 0) :
    ¬ inGrid grid q := by
  rcases q with ⟨a, b⟩
  rintro ⟨h1, h2, h3, h4⟩
  dsimp at h1 h3
  omega

/-- With every live map key inside the grid, the bounds check in the loop
is redundant: the count is exactly the number of live Moore offsets. -/
lemma neighborCountAt_eq_moore (grid : Grid) (m : CellPositionsMap) (pos : Position)
    (hin : ∀ q, aliveAt m q = true → inGrid grid q) :
    neighborCountAt grid m pos =
      (mooreOffsets.filter (fun d => aliveAt m (pos.x + d.1, pos.y + d.2))).length := by
  rw [neighborCountAt_eq_moore_bounds]
  congr 1
  refine List.filter_congr (fun d _ => ?_)
  cases halive : aliveAt m (pos.x + d.1, pos.y + d.2) with
  | false => simp
  | true => simp [decide_eq_true (hin _ halive)]

lemma neighborCountAt_le_eight (grid : Grid) (m : CellPositionsMap) (pos : Position) :
    neighborCountAt grid m pos ≤ 8 := by
  rw [neighborCountAt_eq_moore_bounds]
  simpa using List.length_filter_le _ mooreOffsets

lemma neighborCountAt_corner_le_three (grid : Grid) (m : CellPositionsMap) :
    neighborCountAt grid m ⟨0, 0⟩ ≤ 3 := by
  rw [neighborCountAt_eq_moore_bounds]
  have hneg : ∀ q : Int × Int, q.1 < 0 ∨ q.2 < 0 → decide (inGrid grid q) = false :=
    fun q h => decide_eq_false (not_inGrid_of_neg grid q h)
  simp only [mooreOffsets, List.filter_cons, List.filter_nil]
  norm_num [hneg ((-1 : Int), (-1 : Int)) (by norm_num),
    hneg ((-1 : Int), (0 : Int)) (by norm_num),
    hneg ((-1 : Int), (1 : Int)) (by norm_num),
    hneg ((0 : Int), (-1 : Int)) (by norm_num),
    hneg ((1 : Int), (-1 : Int)) (by norm_num)]
  split <;> split <;> split <;> simp

/-- C3 (amended): after a count pass every cell's neighbor count is the
count computed from its own position; with all live map keys inside the
i32-wrapped grid bounds — true of every grid with dimensions below
`2^31` — this is exactly the number of the 8 Moore offsets whose
coordinate is alive (so off-grid offsets never contribute); the count is
always at most 8, and at the corner `(0,0)` it is at most 3. At
dimensions at or above `2^31` the wrapped bound fails everywhere and
every count is 0 (see the counterexample). -/
theorem count_pass_moore_semantics :
    (∀ (grid : Grid) (s : EngineState) (c : Cell),
      c ∈ (update_neighbors_brute_force_system grid s).cells →
        c.neighbors = neighborCountAt grid s.cellPositions c.position) ∧
    (∀ (grid : Grid) (m : CellPositionsMap) (pos : Position),
      (∀ q, aliveAt m q = true → inGrid grid q) →
        neighborCountAt grid m pos =
          (mooreOffsets.filter (fun d => aliveAt m (pos.x + d.1, pos.y + d.2))).length) ∧
    (∀ (grid : Grid) (m : CellPositionsMap) (pos : Position),
      neighborCountAt grid m pos ≤ 8) ∧
    (∀ (grid : Grid) (m : CellPositionsMap),
      neighborCountAt grid m ⟨0, 0⟩ ≤ 3) := by
  refine ⟨?_, neighborCountAt_eq_moore, neighborCountAt_le_eight,
    neighborCountAt_corner_le_three⟩
  intro grid s c hc
  rcases List.mem_map.mp hc with ⟨c0, _, rfl⟩
  rfl

/-- Witness for C3: a 2×2 grid whose map holds live cells at `(0,0)` and
`(1,1)`; the count at `(0,0)` matches the Moore-offset filter and equals
1. -/
theorem count_pass_moore_semantics_witness :
    neighborCountAt ⟨2, 2⟩ [(((0 : Int), (0 : Int)), true), (((1 : Int), (1 : Int)), true)]
        ⟨0, 0⟩ =
      (mooreOffsets.filter (fun d =>
        aliveAt [(((0 : Int), (0 : Int)), true), (((1 : Int), (1 : Int)), true)]
          ((⟨0, 0⟩ : Position).x + d.1, (⟨0, 0⟩ : Position).y + d.2))).length ∧
    neighborCountAt ⟨2, 2⟩ [(((0 : Int), (0 : Int)), true), (((1 : Int), (1 : Int)), true)]
        ⟨0, 0⟩ = 1 := by
  refine ⟨count_pass_moore_semantics.2.1 ⟨2, 2⟩ _ ⟨0, 0⟩ ?_, by decide⟩
  intro q hq
  rcases q with ⟨a, b⟩
  simp only [aliveAt, List.lookup, beq_iff_eq, Prod.mk.injEq] at hq
  rcases h1 : ((a, b) == ((0 : Int), (0 : Int)) : Bool) with _ | _ <;> rw [h1] at hq
  · rcases h2 : ((a, b) == ((1 : Int), (1 : Int)) : Bool) with _ | _ <;> rw [h2] at hq
    · simp at hq
    · obtain ⟨rfl, rfl⟩ : a = 1 ∧ b = 1 := by simpa using (beq_iff_eq.mp h2)
      decide
  · obtain ⟨rfl, rfl⟩ : a = 0 ∧ b = 0 := by simpa using (beq_iff_eq.mp h1)
    decide

/-- C2: the rule table of `update_cells_system` is exactly Conway's rule
(alive with 2 or 3 survives, dead with exactly 3 is born, everything else
dies — no other transition); the pass writes only the `state` fields and
the `CellsChanged` flag, and, starting from a lowered flag, the flag ends
up raised iff some cell's state differs from before the call. -/
theorem update_cells_rule_and_flag :
    (∀ n, cellStep true n = (n == 2 || n == 3)) ∧
    (∀ n, cellStep false n = (n == 3)) ∧
    (∀ s : EngineState,
      (update_cells_system s).cells =
          s.cells.map (fun c => { c with state := cellStep c.state c.neighbors }) ∧
      (update_cells_system s).cells.map Cell.position = s.cells.map Cell.position ∧
      (update_cells_system s).cells.map Cell.neighbors = s.cells.map Cell.neighbors ∧
      (update_cells_system s).cellPositions = s.cellPositions ∧
      (update_cells_system s).cellsChanged =
        (s.cellsChanged || s.cells.any (fun c => cellStep c.state c.neighbors != c.state))) ∧
    (∀ s : EngineState, s.cellsChanged = false →
      ((update_cells_system s).cellsChanged = true ↔
        ∃ c ∈ s.cells, cellStep c.state c.neighbors ≠ c.state)) := by
  refine ⟨?_, ?_, ?_, ?_⟩
  · intro n
    rcases n with _ | _ | _ | _ | n <;> rfl
  · intro n
    rcases n with _ | _ | _ | _ | n <;> rfl
  · intro s
    refine ⟨rfl, ?_, ?_, rfl, rfl⟩
    · rw [update_cells_system, List.map_map]
      rfl
    · rw [update_cells_system, List.map_map]
      rfl
  · intro s h
    simp [update_cells_system, h, List.any_eq_true, bne_iff_ne]

/-- Witness for C2: a single live cell with 0 neighbors dies, so the
flag is raised from a lowered start. -/
theorem update_cells_rule_and_flag_witness :
    (update_cells_system ⟨[⟨⟨0, 0⟩, true, 0⟩], [], false⟩).cellsChanged = true :=
  (update_cells_rule_and_flag.2.2.2 _ rfl).mpr
    ⟨⟨⟨0, 0⟩, true, 0⟩, by decide, by decide⟩

/-! ### Change-flag lifecycle and scheduler structure -/

/-- C4: the flag starts true at run start; the rule step raises it on any
flip; a raised flag makes the rebuild step replace the map wholesale and
lower the flag; a lowered flag makes the rebuild step a no-op. -/
theorem change_flag_lifecycle :
    (∀ width height : Nat, (initial_state width height).cellsChanged = true) ∧
    (∀ s : EngineState, (∃ c ∈ s.cells, cellStep c.state c.neighbors ≠ c.state) →
      (update_cells_system s).cellsChanged = true) ∧
    (∀ s : EngineState, s.cellsChanged = true →
      (rebuild_cell_positions s).cellPositions =
          s.cells.map (fun c => ((c.position.x, c.position.y), c.state)) ∧
      (rebuild_cell_positions s).cellsChanged = false ∧
      (rebuild_cell_positions s).cells = s.cells) ∧
    (∀ s : EngineState, s.cellsChanged = false → rebuild_cell_positions s = s) := by
  refine ⟨fun _ _ => rfl, ?_, ?_, ?_⟩
  · rintro s ⟨c, hc, hne⟩
    simp only [update_cells_system, Bool.or_eq_true, List.any_eq_true, bne_iff_ne]
    exact Or.inr ⟨c, hc, hne⟩
  · intro s h
    rw [rebuild_cell_positions]
    simp [h]
  · intro s h
    simp [rebuild_cell_positions, h]

/-- Witness for C4: a dying cell raises the flag; a raised flag is lowered
by the rebuild step. -/
theorem change_flag_lifecycle_witness :
    (update_cells_system ⟨[⟨⟨1, 1⟩, true, 0⟩], [], false⟩).cellsChanged = true ∧
    (rebuild_cell_positions ⟨[⟨⟨1, 1⟩, true, 0⟩], [], true⟩).cellsChanged = false :=
  ⟨change_flag_lifecycle.2.1 _ ⟨⟨⟨1, 1⟩, true, 0⟩, by decide, by decide⟩,
   (change_flag_lifecycle.2.2.1 _ rfl).2.1⟩

lemma run_generations_succ (grid : Grid) (g : Nat) :
    ∀ s : EngineState, run_generations grid (g + 1) s =
      schedule_run grid (run_generations grid g s) := by
  induction g with
  | zero => intro s; rfl
  | succ g ih =>
    intro s
    calc run_generations grid (g + 2) s
        = run_generations grid (g + 1) (schedule_run grid s) := rfl
      _ = schedule_run grid (run_generations grid g (schedule_run grid s)) := ih _
      _ = schedule_run grid (run_generations grid (g + 1) s) := rfl

/-- C5: zero generations leave the constructed state untouched; each
further generation applies the schedule exactly once more, and the
schedule is the strict 5-step chain rebuild → count → rule → rebuild →
count, with no early-termination branch. -/
theorem scheduler_exact_iterations :
    (∀ width height : Nat, initRun width height 0 = initial_state width height) ∧
    (∀ width height g : Nat, initRun width height (g + 1) =
      schedule_run ⟨width, height⟩ (initRun width height g)) ∧
    (∀ (grid : Grid) (s : EngineState), schedule_run grid s =
      update_neighbors_brute_force_system grid
        (rebuild_cell_positions
          (update_cells_system
            (update_neighbors_brute_force_system grid
              (rebuild_cell_positions s))))) :=
  ⟨fun _ _ => rfl, fun w h g => run_generations_succ ⟨w, h⟩ g _, fun _ _ => rfl⟩

/-! ### Cell-store population -/

lemma toI32_small (n : Nat) (h : n < 2 ^ 31) : toI32 n = (n : Int) := by
  have h32 : n < 2 ^ 32 := lt_trans h (by norm_num)
  unfold toI32
  rw [Nat.mod_eq_of_lt h32, if_pos h]

/-- Under in-range dimensions the wrapping arithmetic in `spawn_cells` is
exact: cell `i` sits at `(i % width, i / width)`. -/
lemma spawn_cells_eq (w h : Nat) (hw : w ≤ 2 ^ 31) (hh : h ≤ 2 ^ 31)
    (hwh : w * h < 2 ^ 32) :
    spawn_cells w h = (List.range (w * h)).map (fun i =>
      { position := { x := ((i % w : Nat) : Int), y := ((i / w : Nat) : Int) }
        state := true
        neighbors := 0 }) := by
  unfold spawn_cells
  rw [Nat.mod_eq_of_lt hwh]
  rcases Nat.eq_zero_or_pos w with hw0 | hw0
  · subst hw0; simp
  refine List.map_congr_left (fun i hi => ?_)
  rw [List.mem_range] at hi
  have hmod : i % w < w := Nat.mod_lt _ hw0
  have hdiv : i / w < h := Nat.div_lt_of_lt_mul hi
  rw [toI32_small _ (lt_of_lt_of_le hmod hw), toI32_small _ (lt_of_lt_of_le hdiv hh)]

lemma spawn_cells_length (w h : Nat) (hwh : w * h < 2 ^ 32) :
    (spawn_cells w h).length = w * h := by
  unfold spawn_cells
  rw [Nat.mod_eq_of_lt hwh]
  simp

lemma spawn_cells_coords_nodup (w h : Nat) (hw : w ≤ 2 ^ 31) (hh : h ≤ 2 ^ 31)
    (hwh : w * h < 2 ^ 32) :
    ((spawn_cells w h).map Cell.position).Nodup := by
  rw [spawn_cells_eq w h hw hh hwh, List.map_map]
  rcases Nat.eq_zero_or_pos w with hw0 | hw0
  · subst hw0; simp
  show (List.map (fun i =>
    Position.mk ((i % w : Nat) : Int) ((i / w : Nat) : Int)) (List.range (w * h))).Nodup
  refine List.Nodup.map_on ?_ (List.nodup_range _)
  intro i _ j _ hij
  injection hij with h1 h2
  have h1' : i % w = j % w := by exact_mod_cast h1
  have h2' : i / w = j / w := by exact_mod_cast h2
  have hi := Nat.div_add_mod i w
  have hj := Nat.div_add_mod j w
  rw [h1', h2'] at hi
  exact hi.symm.trans hj

lemma spawn_cells_mem_position (w h : Nat) (hw : w ≤ 2 ^ 31) (hh : h ≤ 2 ^ 31)
    (hwh : w * h < 2 ^ 32) (p : Position) :
    (∃ c ∈ spawn_cells w h, c.position = p) ↔
      0 ≤ p.x ∧ p.x < (w : Int) ∧ 0 ≤ p.y ∧ p.y < (h : Int) := by
  rw [spawn_cells_eq w h hw hh hwh]
  rcases p with ⟨px, py⟩
  simp only [List.mem_map, List.mem_range]
  constructor
  · rintro ⟨c, ⟨i, hi, rfl⟩, hpos⟩
    injection hpos with hpx hpy
    rcases Nat.eq_zero_or_pos w with hw0 | hw0
    · subst hw0; simp at hi
    have hmod : i % w < w := Nat.mod_lt _ hw0
    have hdiv : i / w < h := Nat.div_lt_of_lt_mul hi
    rw [← hpx, ← hpy]
    refine ⟨by positivity, ?_, by positivity, ?_⟩
    · exact_mod_cast hmod
    · exact_mod_cast hdiv
  · rintro ⟨hx0, hxw, hy0, hyh⟩
    have hw0 : 0 < w := by
      rcases Nat.eq_zero_or_pos w with h0 | h0
      · subst h0
        norm_num at hxw
        exact absurd (lt_of_le_of_lt hx0 hxw) (lt_irrefl 0)
      · exact h0
    obtain ⟨a, rfl⟩ : ∃ a : Nat, px = (a : Int) := ⟨px.toNat, (Int.toNat_of_nonneg hx0).symm⟩
    obtain ⟨b, rfl⟩ : ∃ b : Nat, py = (b : Int) := ⟨py.toNat, (Int.toNat_of_nonneg hy0).symm⟩
    have haw : a < w := by exact_mod_cast hxw
    have hbh : b < h := by exact_mod_cast hyh
    have h1 : (a + b * w) % w = a := by
      rw [Nat.add_mul_mod_self_right, Nat.mod_eq_of_lt haw]
    have h2 : (a + b * w) / w = b := by
      rw [Nat.add_mul_div_right _ _ hw0, Nat.div_eq_of_lt haw, Nat.zero_add]
    refine ⟨_, ⟨a + b * w, ?_, rfl⟩, ?_⟩
    · calc a + b * w < w + b * w := by omega
        _ = (b + 1) * w := by ring
        _ ≤ h * w := Nat.mul_le_mul_right w (by omega)
        _ = w * h := Nat.mul_comm _ _
    · show Position.mk (((a + b * w) % w : Nat) : Int) (((a + b * w) / w : Nat) : Int) =
        Position.mk (a : Int) (b : Int)
      rw [h1, h2]

lemma rebuild_cells_eq (s : EngineState) :
    (rebuild_cell_positions s).cells = s.cells := by
  rw [rebuild_cell_positions]
  split <;> rfl

lemma schedule_run_positions (grid : Grid) (s : EngineState) :
    (schedule_run grid s).cells.map Cell.position = s.cells.map Cell.position := by
  rw [schedule_run, update_neighbors_brute_force_system, rebuild_cells_eq,
    update_cells_system, update_neighbors_brute_force_system, rebuild_cells_eq]
  simp only [List.map_map]
  rfl

lemma run_generations_positions (grid : Grid) (g : Nat) :
    ∀ s : EngineState, (run_generations grid g s).cells.map Cell.position =
      s.cells.map Cell.position := by
  induction g with
  | zero => intro s; rfl
  | succ g ih =>
    intro s
    calc (run_generations grid (g + 1) s).cells.map Cell.position
        = (run_generations grid g (schedule_run grid s)).cells.map Cell.position := rfl
      _ = (schedule_run grid s).cells.map Cell.position := ih _
      _ = s.cells.map Cell.position := schedule_run_positions grid s

lemma run_generations_length (grid : Grid) (g : Nat) (s : EngineState) :
    (run_generations grid g s).cells.length = s.cells.length := by
  have hp := run_generations_positions grid g s
  calc (run_generations grid g s).cells.length
      = ((run_generations grid g s).cells.map Cell.position).length :=
        (List.length_map _ _).symm
    _ = (s.cells.map Cell.position).length := by rw [hp]
    _ = s.cells.length := List.length_map _ _

/-- C6: for representable dimensions, construction populates exactly
`width*height` cells in row-major order (cell `i` at `(i % width,
i / width)`, so `y` major, `x` minor), with no duplicate and no missing
coordinate of `[0,width) × [0,height)`, and the cell count stays
`width*height` for the whole run — no system inserts or deletes cells. -/
theorem cell_store_population :
    ∀ width height : Nat, width ≤ 2 ^ 31 → height ≤ 2 ^ 31 → width * height < 2 ^ 32 →
      (spawn_cells width height).length = width * height ∧
      spawn_cells width height = (List.range (width * height)).map (fun i =>
        { position := { x := ((i % width : Nat) : Int), y := ((i / width : Nat) : Int) }
          state := true
          neighbors := 0 }) ∧
      ((spawn_cells width height).map Cell.position).Nodup ∧
      (∀ p : Position, (∃ c ∈ spawn_cells width height, c.position = p) ↔
        0 ≤ p.x ∧ p.x < (width : Int) ∧ 0 ≤ p.y ∧ p.y < (height : Int)) ∧
      (∀ (grid : Grid) (g : Nat),
        (run_generations grid g (initial_state width height)).cells.length =
          width * height) := by
  intro w h hw hh hwh
  refine ⟨spawn_cells_length w h hwh, spawn_cells_eq w h hw hh hwh,
    spawn_cells_coords_nodup w h hw hh hwh, spawn_cells_mem_position w h hw hh hwh, ?_⟩
  intro grid g
  rw [run_generations_length]
  exact spawn_cells_length w h hwh

/-- Witness for C6: a 2×3 grid spawns exactly 6 cells and still holds 6
cells after 2 generations. -/
theorem cell_store_population_witness :
    (spawn_cells 2 3).length = 2 * 3 ∧
    (run_generations ⟨2, 3⟩ 2 (initial_state 2 3)).cells.length = 2 * 3 :=
  ⟨(cell_store_population 2 3 (by norm_num) (by norm_num) (by norm_num)).1,
   (cell_store_population 2 3 (by norm_num) (by norm_num) (by norm_num)).2.2.2.2 ⟨2, 3⟩ 2⟩

/-! ### Error handling at construction -/

/-- Modelled from the spec: the configuration-error condition under which
§7 requires construction to fail fast (a zero-area grid, or a
`width*height` product exceeding the representable u32 cell count). The
source has no error type or failure path, so the condition itself is
taken from the spec's words. -/
def construction_must_fail (width height : Nat) : Bool :=
  (width * height == 0) || decide (2 ^ 32 ≤ width * height)

/-- C7 counterexample: a zero-area grid is a configuration error per the
spec, yet construction succeeds — the engine builds an ordinary world with
zero cells and a generation runs to completion with no error surfaced. -/
theorem construction_fails_fast_counterexample :
    construction_must_fail 0 5 = true ∧
    initial_state 0 5 = ⟨[], [], true⟩ ∧
    initRun 0 5 1 = ⟨[], [], false⟩ := by
  decide

/-- C7 amended: construction is infallible for every input — a zero-area
grid yields zero cells and runs normally, and the cell count is the u32
product `width * height % 2^32` (wrapping, per release-mode semantics);
no error is ever surfaced to the caller. -/
theorem construction_infallible :
    ∀ width height generations : Nat,
      (initial_state width height).cells.length = width * height % 2 ^ 32 ∧
      (initRun width height generations).cells.length = width * height % 2 ^ 32 := by
  intro w h g
  have hlen : (spawn_cells w h).length = w * h % 2 ^ 32 := by
    unfold spawn_cells
    simp
  exact ⟨hlen, by rw [initRun, run_generations_length]; exact hlen⟩

/-! ### Seed-pattern behavior -/

lemma run_generations_fixed (grid : Grid) (s : EngineState)
    (hfix : schedule_run grid s = s) : ∀ g : Nat, run_generations grid g s = s := by
  intro g
  induction g with
  | zero => rfl
  | succ g ih =>
    show run_generations grid g (schedule_run grid s) = s
    rw [hfix]
    exact ih

/-- C8: the 2×2 all-alive block is a still-life — after every positive
number of generations all 4 cells are alive and each caches a neighbor
count of 3. -/
theorem block_still_life :
    ∀ g : Nat, 1 ≤ g →
      (run_generations ⟨2, 2⟩ g ⟨spawn_block_cells 2 2, [], true⟩).cells.length = 4 ∧
      ∀ c ∈ (run_generations ⟨2, 2⟩ g ⟨spawn_block_cells 2 2, [], true⟩).cells,
        c.state = true ∧ c.neighbors = 3 := by
  intro g hg
  obtain ⟨g, rfl⟩ : ∃ g', g = g' + 1 := ⟨g - 1, by omega⟩
  have hunf : run_generations ⟨2, 2⟩ (g + 1) ⟨spawn_block_cells 2 2, [], true⟩ =
      run_generations ⟨2, 2⟩ g (schedule_run ⟨2, 2⟩ ⟨spawn_block_cells 2 2, [], true⟩) := rfl
  have hfix : schedule_run ⟨2, 2⟩ (schedule_run ⟨2, 2⟩ ⟨spawn_block_cells 2 2, [], true⟩) =
      schedule_run ⟨2, 2⟩ ⟨spawn_block_cells 2 2, [], true⟩ := by decide
  rw [hunf, run_generations_fixed _ _ hfix g]
  exact ⟨by decide, by decide⟩

/-- Witness for C8: one generation of the block keeps 4 cells. -/
theorem block_still_life_witness :
    (run_generations ⟨2, 2⟩ 1 ⟨spawn_block_cells 2 2, [], true⟩).cells.length = 4 :=
  (block_still_life 1 (by decide)).1

/-- The live coordinates of a state, in cell-store order. -/
def live_positions (s : EngineState) : List (Int × Int) :=
  (s.cells.filter Cell.state).map (fun c => (c.position.x, c.position.y))

/-- C9: the vertical blinker bar on a 3×3 grid becomes the horizontal bar
after one generation and returns to the vertical bar after two — an exact
period-2 round trip. -/
theorem blinker_period_two :
    live_positions ⟨spawn_blinker_cells 3 3, [], true⟩ = [(1, 0), (1, 1), (1, 2)] ∧
    live_positions (run_generations ⟨3, 3⟩ 1 ⟨spawn_blinker_cells 3 3, [], true⟩) =
      [(0, 1), (1, 1), (2, 1)] ∧
    live_positions (run_generations ⟨3, 3⟩ 2 ⟨spawn_blinker_cells 3 3, [], true⟩) =
      [(1, 0), (1, 1), (1, 2)] := by
  decide

/-! ### Association-list lookup under permutation -/

lemma lookup_eq_some_iff_mem (m : CellPositionsMap) (hk : (m.map Prod.fst).Nodup)
    (q : Int × Int) (b : Bool) : m.lookup q = some b ↔ (q, b) ∈ m := by
  induction m with
  | nil => simp [List.lookup]
  | cons e t ih =>
    rcases e with ⟨k, v⟩
    rw [List.map_cons, List.nodup_cons] at hk
    by_cases hqk : q = k
    · subst hqk
      rw [List.lookup_cons_self]
      constructor
      · rintro h
        rw [Option.some_inj] at h
        subst h
        exact List.mem_cons_self _ _
      · intro h
        rcases (List.mem_cons.mp h) with h | h
        · rw [Prod.mk.injEq] at h
          rw [h.2]
        · exact absurd (List.mem_map.mpr ⟨(q, b), h, rfl⟩) hk.1
    · have hbeq : (q == k) = false := beq_eq_false_iff_ne.mpr hqk
      rw [List.lookup_cons, hbeq]
      rw [ih hk.2]
      constructor
      · exact fun h => List.mem_cons_of_mem _ h
      · intro h
        rcases (List.mem_cons.mp h) with h | h
        · rw [Prod.mk.injEq] at h
          exact absurd h.1 hqk
        · exact h

lemma lookup_perm_eq (m₁ m₂ : CellPositionsMap) (hp : m₁.Perm m₂)
    (hk : (m₁.map Prod.fst).Nodup) (q : Int × Int) : m₁.lookup q = m₂.lookup q := by
  have hk2 : (m₂.map Prod.fst).Nodup := ((hp.map Prod.fst).nodup_iff).mp hk
  rcases h1 : m₁.lookup q with _ | b
  · rcases h2 : m₂.lookup q with _ | b2
    · rfl
    · have hmem : (q, b2) ∈ m₁ :=
        hp.mem_iff.mpr ((lookup_eq_some_iff_mem m₂ hk2 q b2).mp h2)
      have := (lookup_eq_some_iff_mem m₁ hk q b2).mpr hmem
      rw [h1] at this
      exact absurd this (by simp)
  · have hmem : (q, b) ∈ m₂ :=
      hp.mem_iff.mp ((lookup_eq_some_iff_mem m₁ hk q b).mp h1)
    rw [(lookup_eq_some_iff_mem m₂ hk2 q b).mpr hmem]

lemma neighborLoopBody_lookup_congr (grid : Grid) (m₁ m₂ : CellPositionsMap)
    (pos : Position) (hl : ∀ q, m₁.lookup q = m₂.lookup q) (n : Nat) (d : Int × Int) :
    neighborLoopBody grid m₁ pos n d = neighborLoopBody grid m₂ pos n d := by
  unfold neighborLoopBody
  simp only [hl]

lemma neighborCountAt_lookup_congr (grid : Grid) (m₁ m₂ : CellPositionsMap)
    (pos : Position) (hl : ∀ q, m₁.lookup q = m₂.lookup q) :
    neighborCountAt grid m₁ pos = neighborCountAt grid m₂ pos := by
  unfold neighborCountAt
  congr 1
  funext n d
  exact neighborLoopBody_lookup_congr grid m₁ m₂ pos hl n d

/-- C10: determinism of the parallel neighbor pass. Each cell's written
count is a function of only its own position, the grid, and the read-only
map (first conjunct); the pass commutes with any reordering of the cell
store, so the parallel iteration order cannot affect the multiset of
results (second conjunct); and the count is invariant under the map's
iteration/insertion order — the hash-map nondeterminism — as long as keys
are unique (third conjunct). Hence a run is a deterministic function of
`(width, height, generations)`. -/
theorem neighbor_pass_deterministic :
    (∀ (grid : Grid) (s : EngineState) (c : Cell), c ∈ s.cells →
      (⟨c.position, c.state, neighborCountAt grid s.cellPositions c.position⟩ : Cell) ∈
        (update_neighbors_brute_force_system grid s).cells) ∧
    (∀ (grid : Grid) (s₁ s₂ : EngineState), s₁.cellPositions = s₂.cellPositions →
      s₁.cells.Perm s₂.cells →
      (update_neighbors_brute_force_system grid s₁).cells.Perm
        (update_neighbors_brute_force_system grid s₂).cells) ∧
    (∀ (grid : Grid) (m₁ m₂ : CellPositionsMap) (pos : Position), m₁.Perm m₂ →
      (m₁.map Prod.fst).Nodup →
      neighborCountAt grid m₁ pos = neighborCountAt grid m₂ pos) := by
  refine ⟨?_, ?_, ?_⟩
  · intro grid s c hc
    exact List.mem_map.mpr ⟨c, hc, rfl⟩
  · intro grid s₁ s₂ hm hp
    rw [update_neighbors_brute_force_system, update_neighbors_brute_force_system, hm]
    exact hp.map _
  · intro grid m₁ m₂ pos hp hk
    exact neighborCountAt_lookup_congr grid m₁ m₂ pos (lookup_perm_eq m₁ m₂ hp hk)

/-- Witness for C10: reversing a two-entry map with distinct keys leaves
a concrete count unchanged. -/
theorem neighbor_pass_deterministic_witness :
    neighborCountAt ⟨2, 2⟩ [(((0 : Int), (0 : Int)), true), (((1 : Int), (0 : Int)), true)]
        ⟨1, 1⟩ =
      neighborCountAt ⟨2, 2⟩ [(((1 : Int), (0 : Int)), true), (((0 : Int), (0 : Int)), true)]
        ⟨1, 1⟩ :=
  neighbor_pass_deterministic.2.2 ⟨2, 2⟩ _ _ ⟨1, 1⟩ (by decide) (by decide)

/-! ### The dual neighbor-counting strategies -/

/-- Modelled from the spec: the spatial-index neighbor-counting strategy
is described in §4.2 but its implementation is not present under `src/`
(only the dense-lookup variant is). Per the spec it inserts only live
coordinates into a 2-D nearest-neighbor structure; `query_count` performs
a fixed-radius range query whose radius (here 2, squared 4) encloses the
3×3 neighborhood under squared-Euclidean distance, then filters the
candidates to the exact 8-neighbor box excluding the query point, and
counts the survivors. -/
def spatial_index_query_count (live : List (Int × Int)) (p : Int × Int) : Nat :=
  ((live.filter (fun q => decide ((q.1 - p.1) ^ 2 + (q.2 - p.2) ^ 2 ≤ 2 ^ 2))).filter
    (fun q => decide (q ≠ p ∧ (q.1 - p.1).natAbs ≤ 1 ∧ (q.2 - p.2).natAbs ≤ 1))).length

/-- The live coordinates recorded in a `CellPositions` map — what the
spatial strategy inserts into its index. -/
def live_coords (m : CellPositionsMap) : List (Int × Int) :=
  (m.filter (fun e => e.2)).map Prod.fst

lemma spatial_count_eq_box (live : List (Int × Int)) (p : Int × Int) :
    spatial_index_query_count live p =
      (live.filter (fun q =>
        decide (q ≠ p ∧ (q.1 - p.1).natAbs ≤ 1 ∧ (q.2 - p.2).natAbs ≤ 1))).length := by
  unfold spatial_index_query_count
  rw [List.filter_filter]
  congr 1
  refine List.filter_congr (fun q _ => ?_)
  by_cases hbox : q ≠ p ∧ (q.1 - p.1).natAbs ≤ 1 ∧ (q.2 - p.2).natAbs ≤ 1
  · obtain ⟨hne, hb1, hb2⟩ := hbox
    have h1 : -1 ≤ q.1 - p.1 ∧ q.1 - p.1 ≤ 1 := by omega
    have h2 : -1 ≤ q.2 - p.2 ∧ q.2 - p.2 ≤ 1 := by omega
    have hrange : (q.1 - p.1) ^ 2 + (q.2 - p.2) ^ 2 ≤ 4 := by
      nlinarith [h1.1, h1.2, h2.1, h2.2]
    simp [hne, hb1, hb2, hrange]
  · simp [hbox]

lemma lookup_mem (m : CellPositionsMap) (q : Int × Int) (b : Bool)
    (h : m.lookup q = some b) : (q, b) ∈ m := by
  induction m with
  | nil => simp [List.lookup] at h
  | cons e t ih =>
    rcases e with ⟨k, v⟩
    rw [List.lookup_cons] at h
    by_cases hqk : q = k
    · subst hqk
      rw [beq_self_eq_true] at h
      simp only [Option.some_inj] at h
      subst h
      exact List.mem_cons_self _ _
    · rw [beq_eq_false_iff_ne.mpr hqk] at h
      exact List.mem_cons_of_mem _ (ih h)

lemma mem_live_coords (m : CellPositionsMap) (q : Int × Int) :
    q ∈ live_coords m ↔ (q, true) ∈ m := by
  unfold live_coords
  rw [List.mem_map]
  constructor
  · rintro ⟨⟨q', b⟩, hmem, rfl⟩
    rw [List.mem_filter] at hmem
    have hb : b = true := hmem.2
    subst hb
    exact hmem.1
  · intro h
    exact ⟨(q, true), List.mem_filter.mpr ⟨h, rfl⟩, rfl⟩

lemma live_coords_nodup (m : CellPositionsMap) (hk : (m.map Prod.fst).Nodup) :
    (live_coords m).Nodup :=
  List.Nodup.sublist (List.Sublist.map Prod.fst (List.filter_sublist m)) hk

lemma aliveAt_iff_mem (m : CellPositionsMap) (hk : (m.map Prod.fst).Nodup)
    (q : Int × Int) : aliveAt m q = true ↔ (q, true) ∈ m := by
  unfold aliveAt
  rw [beq_iff_eq]
  exact lookup_eq_some_iff_mem m hk q true

lemma mem_mooreOffsets (d : Int × Int) :
    d ∈ mooreOffsets ↔ d ≠ (0, 0) ∧ d.1.natAbs ≤ 1 ∧ d.2.natAbs ≤ 1 := by
  rcases d with ⟨a, b⟩
  simp only [mooreOffsets, List.mem_cons, List.not_mem_nil, or_false, Prod.mk.injEq,
    ne_eq, not_and]
  omega

/-- Counting live in-box coordinates around `p` is the same as counting
Moore offsets whose shifted coordinate is live: the two filtered lists are
permutations of each other via the translation `d ↦ p + d`. -/
lemma box_filter_len (m : CellPositionsMap) (p : Int × Int)
    (hk : (m.map Prod.fst).Nodup) :
    ((live_coords m).filter (fun q =>
        decide (q ≠ p ∧ (q.1 - p.1).natAbs ≤ 1 ∧ (q.2 - p.2).natAbs ≤ 1))).length =
      (mooreOffsets.filter (fun d => aliveAt m (p.1 + d.1, p.2 + d.2))).length := by
  have hinj : Function.Injective (fun d : Int × Int => (p.1 + d.1, p.2 + d.2)) := by
    rintro ⟨a1, a2⟩ ⟨b1, b2⟩ h
    simp only [Prod.mk.injEq] at h ⊢
    omega
  rw [← List.length_map (mooreOffsets.filter (fun d => aliveAt m (p.1 + d.1, p.2 + d.2)))
    (fun d => (p.1 + d.1, p.2 + d.2))]
  apply List.Perm.length_eq
  apply List.perm_of_nodup_nodup_toFinset_eq
  · exact (live_coords_nodup m hk).filter _
  · exact (List.Nodup.filter _ (by decide : mooreOffsets.Nodup)).map hinj
  · ext x
    simp only [List.mem_toFinset, List.mem_filter, List.mem_map, decide_eq_true_eq]
    constructor
    · rintro ⟨hmem, hne, hb1, hb2⟩
      have halive : aliveAt m x = true :=
        (aliveAt_iff_mem m hk x).mpr ((mem_live_coords m x).mp hmem)
      have hsh : (p.1 + (x.1 - p.1, x.2 - p.2).1, p.2 + (x.1 - p.1, x.2 - p.2).2) = x := by
        rw [Prod.ext_iff]
        exact ⟨by dsimp; ring, by dsimp; ring⟩
      refine ⟨(x.1 - p.1, x.2 - p.2), ⟨?_, ?_⟩, hsh⟩
      · rw [mem_mooreOffsets]
        refine ⟨?_, by simpa using hb1, by simpa using hb2⟩
        intro hd0
        apply hne
        rw [Prod.mk.injEq] at hd0
        rw [Prod.ext_iff]
        constructor <;> omega
      · rw [hsh]
        exact halive
    · rintro ⟨d, ⟨hdm, halive⟩, rfl⟩
      rw [mem_mooreOffsets] at hdm
      obtain ⟨hd0, hd1, hd2⟩ := hdm
      refine ⟨(mem_live_coords m _).mpr ((aliveAt_iff_mem m hk _).mp halive), ?_, ?_, ?_⟩
      · intro he
        apply hd0
        rw [Prod.ext_iff] at he
        dsimp at he
        rw [Prod.ext_iff]
        constructor <;> dsimp <;> omega
      · dsimp
        omega
      · dsimp
        omega

/-- The two strategies agree: for a map with unique keys whose live
entries all lie in the grid, the spatial-index count at any position is
the dense-lookup count computed by the source. -/
lemma spatial_eq_dense (grid : Grid) (m : CellPositionsMap) (pos : Position)
    (hk : (m.map Prod.fst).Nodup)
    (hin : ∀ q, aliveAt m q = true → inGrid grid q) :
    spatial_index_query_count (live_coords m) (pos.x, pos.y) =
      neighborCountAt grid m pos := by
  rw [spatial_count_eq_box, box_filter_len m (pos.x, pos.y) hk,
    neighborCountAt_eq_moore grid m pos hin]

/-- The engine with the neighbor-counting capability made a parameter, as
§9 prescribes: the pipeline is written once against the strategy. -/
def update_neighbors_with (strat : Grid → CellPositionsMap → Position → Nat)
    (grid : Grid) (s : EngineState) : EngineState :=
  { s with
    cells := s.cells.map (fun c =>
      { c with neighbors := strat grid s.cellPositions c.position }) }

/-- The 5-step schedule with a pluggable counting strategy. -/
def schedule_run_with (strat : Grid → CellPositionsMap → Position → Nat)
    (grid : Grid) (s : EngineState) : EngineState :=
  update_neighbors_with strat grid
    (rebuild_cell_positions
      (update_cells_system
        (update_neighbors_with strat grid
          (rebuild_cell_positions s))))

/-- The generation loop with a pluggable counting strategy. -/
def run_generations_with (strat : Grid → CellPositionsMap → Position → Nat)
    (grid : Grid) : Nat → EngineState → EngineState
  | 0, s => s
  | n + 1, s => run_generations_with strat grid n (schedule_run_with strat grid s)

/-- The dense-lookup strategy: exactly the source's count. -/
def dense_lookup_strategy : Grid → CellPositionsMap → Position → Nat :=
  neighborCountAt

/-- The spatial-index strategy plugged into the engine: index the live
coordinates of the rebuilt map and range-query around the cell. -/
def spatial_index_strategy : Grid → CellPositionsMap → Position → Nat :=
  fun _ m pos => spatial_index_query_count (live_coords m) (pos.x, pos.y)

/-- The coordinate-to-state association the rebuild step stores. -/
def snapshot_map (cells : List Cell) : CellPositionsMap :=
  cells.map (fun c => ((c.position.x, c.position.y), c.state))

/-- The coordinates of a cell list, in store order. -/
def coords_list (cells : List Cell) : List (Int × Int) :=
  cells.map (fun c => (c.position.x, c.position.y))

/-- Invariant maintained by the engine: a lowered flag means the map is
the snapshot of the current cells, all cells lie in the grid, and cell
coordinates are pairwise distinct. -/
def EngineInv (grid : Grid) (s : EngineState) : Prop :=
  (s.cellsChanged = false → s.cellPositions = snapshot_map s.cells) ∧
  (∀ c ∈ s.cells, inGrid grid (c.position.x, c.position.y)) ∧
  (coords_list s.cells).Nodup

lemma snapshot_keys (cells : List Cell) :
    (snapshot_map cells).map Prod.fst = coords_list cells := by
  unfold snapshot_map coords_list
  rw [List.map_map]
  rfl

lemma snapshot_live_in_grid (grid : Grid) (cells : List Cell)
    (hin : ∀ c ∈ cells, inGrid grid (c.position.x, c.position.y)) :
    ∀ q, aliveAt (snapshot_map cells) q = true → inGrid grid q := by
  intro q halive
  have hl : (snapshot_map cells).lookup q = some true := by
    unfold aliveAt at halive
    exact eq_of_beq halive
  rcases List.mem_map.mp (lookup_mem _ _ _ hl) with ⟨c, hc, he⟩
  rw [Prod.mk.injEq] at he
  rw [← he.1]
  exact hin c hc

lemma rebuild_state (s : EngineState)
    (h1 : s.cellsChanged = false → s.cellPositions = snapshot_map s.cells) :
    rebuild_cell_positions s = ⟨s.cells, snapshot_map s.cells, false⟩ := by
  rcases s with ⟨cs, mp, fl⟩
  cases fl
  · have hmp := h1 rfl
    dsimp at hmp
    subst hmp
    rfl
  · rfl

lemma update_neighbors_with_congr (f g : Grid → CellPositionsMap → Position → Nat)
    (grid : Grid) (s : EngineState)
    (h : ∀ pos, f grid s.cellPositions pos = g grid s.cellPositions pos) :
    update_neighbors_with f grid s = update_neighbors_with g grid s := by
  unfold update_neighbors_with
  have hm : s.cells.map (fun c => { c with neighbors := f grid s.cellPositions c.position }) =
      s.cells.map (fun c => { c with neighbors := g grid s.cellPositions c.position }) :=
    List.map_congr_left (fun c _ => by rw [h c.position])
  rw [hm]

lemma coords_list_set_neighbors (cells : List Cell) (n : Cell → Nat) :
    coords_list (cells.map (fun c => { c with neighbors := n c })) = coords_list cells := by
  unfold coords_list
  rw [List.map_map]
  rfl

lemma snapshot_map_set_neighbors (cells : List Cell) (n : Cell → Nat) :
    snapshot_map (cells.map (fun c => { c with neighbors := n c })) = snapshot_map cells := by
  unfold snapshot_map
  rw [List.map_map]
  rfl

lemma coords_list_set_state (cells : List Cell) :
    coords_list (cells.map (fun c => { c with state := cellStep c.state c.neighbors })) =
      coords_list cells := by
  unfold coords_list
  rw [List.map_map]
  rfl

lemma in_grid_set_neighbors (grid : Grid) (cells : List Cell) (n : Cell → Nat)
    (h : ∀ c ∈ cells, inGrid grid (c.position.x, c.position.y)) :
    ∀ c ∈ cells.map (fun c => { c with neighbors := n c }),
      inGrid grid (c.position.x, c.position.y) := by
  intro c hc
  rcases List.mem_map.mp hc with ⟨a, ha, rfl⟩
  exact h a ha

lemma in_grid_set_state (grid : Grid) (cells : List Cell)
    (h : ∀ c ∈ cells, inGrid grid (c.position.x, c.position.y)) :
    ∀ c ∈ cells.map (fun c => { c with state := cellStep c.state c.neighbors }),
      inGrid grid (c.position.x, c.position.y) := by
  intro c hc
  rcases List.mem_map.mp hc with ⟨a, ha, rfl⟩
  exact h a ha

lemma snapshot_after_rule (cells : List Cell)
    (h : cells.any (fun c => cellStep c.state c.neighbors != c.state) = false) :
    snapshot_map (cells.map (fun c => { c with state := cellStep c.state c.neighbors })) =
      snapshot_map cells := by
  unfold snapshot_map
  rw [List.map_map]
  refine List.map_congr_left (fun c hc => ?_)
  have hstate : cellStep c.state c.neighbors = c.state :=
    bne_eq_false_iff_eq.mp (by
      rcases hb : (cellStep c.state c.neighbors != c.state) with _ | _
      · rfl
      · exact absurd (List.any_eq_true.mpr ⟨c, hc, hb⟩) (by rw [h]; simp))
  show ((c.position.x, c.position.y), cellStep c.state c.neighbors) =
    ((c.position.x, c.position.y), c.state)
  rw [hstate]

lemma spatial_agrees_on_snapshot (grid : Grid) (cells : List Cell)
    (hin : ∀ c ∈ cells, inGrid grid (c.position.x, c.position.y))
    (hnd : (coords_list cells).Nodup) (pos : Position) :
    spatial_index_strategy grid (snapshot_map cells) pos =
      dense_lookup_strategy grid (snapshot_map cells) pos :=
  spatial_eq_dense grid _ pos (by rw [snapshot_keys]; exact hnd)
    (snapshot_live_in_grid grid cells hin)

/-- One generation of the spatial-strategy engine equals one generation of
the source's dense-lookup engine, and the engine invariant is preserved. -/
lemma schedule_run_with_spatial (grid : Grid) (s : EngineState) (hinv : EngineInv grid s) :
    schedule_run_with spatial_index_strategy grid s = schedule_run grid s ∧
    EngineInv grid (schedule_run grid s) := by
  obtain ⟨h1, h2, h3⟩ := hinv
  have hreb : rebuild_cell_positions s = ⟨s.cells, snapshot_map s.cells, false⟩ :=
    rebuild_state s h1
  have hstage2 : update_neighbors_with spatial_index_strategy grid
      ⟨s.cells, snapshot_map s.cells, false⟩ =
      update_neighbors_brute_force_system grid ⟨s.cells, snapshot_map s.cells, false⟩ :=
    (update_neighbors_with_congr spatial_index_strategy dense_lookup_strategy grid
      ⟨s.cells, snapshot_map s.cells, false⟩
      (fun pos => spatial_agrees_on_snapshot grid s.cells h2 h3 pos)).trans rfl
  set A2 := s.cells.map (fun c =>
    { c with neighbors := neighborCountAt grid (snapshot_map s.cells) c.position }) with hA2d
  have hA2 : update_neighbors_brute_force_system grid ⟨s.cells, snapshot_map s.cells, false⟩ =
      ⟨A2, snapshot_map s.cells, false⟩ := rfl
  set chg := A2.any (fun c => cellStep c.state c.neighbors != c.state) with hchgd
  set A3 := A2.map (fun c => { c with state := cellStep c.state c.neighbors }) with hA3d
  have hA3 : update_cells_system ⟨A2, snapshot_map s.cells, false⟩ =
      ⟨A3, snapshot_map s.cells, chg⟩ := rfl
  have hinA2 : ∀ c ∈ A2, inGrid grid (c.position.x, c.position.y) :=
    in_grid_set_neighbors grid s.cells _ h2
  have hndA2 : (coords_list A2).Nodup := by
    rw [hA2d, coords_list_set_neighbors]
    exact h3
  have hsnapA2 : snapshot_map A2 = snapshot_map s.cells := snapshot_map_set_neighbors _ _
  have hinA3 : ∀ c ∈ A3, inGrid grid (c.position.x, c.position.y) :=
    in_grid_set_state grid A2 hinA2
  have hndA3 : (coords_list A3).Nodup := by
    rw [hA3d, coords_list_set_state]
    exact hndA2
  have h1n : (⟨A3, snapshot_map s.cells, chg⟩ : EngineState).cellsChanged = false →
      (⟨A3, snapshot_map s.cells, chg⟩ : EngineState).cellPositions =
        snapshot_map (⟨A3, snapshot_map s.cells, chg⟩ : EngineState).cells := by
    intro hc
    dsimp at hc ⊢
    rw [hA3d, snapshot_after_rule A2 (by rw [← hchgd]; exact hc), hsnapA2]
  have hreb2 : rebuild_cell_positions ⟨A3, snapshot_map s.cells, chg⟩ =
      ⟨A3, snapshot_map A3, false⟩ := rebuild_state _ h1n
  have hstage5 : update_neighbors_with spatial_index_strategy grid ⟨A3, snapshot_map A3, false⟩ =
      update_neighbors_brute_force_system grid ⟨A3, snapshot_map A3, false⟩ :=
    (update_neighbors_with_congr spatial_index_strategy dense_lookup_strategy grid
      ⟨A3, snapshot_map A3, false⟩
      (fun pos => spatial_agrees_on_snapshot grid A3 hinA3 hndA3 pos)).trans rfl
  constructor
  · unfold schedule_run_with schedule_run
    rw [hreb, hstage2, hA2, hA3, hreb2, hstage5]
  · unfold schedule_run
    rw [hreb, hA2, hA3, hreb2]
    refine ⟨?_, ?_, ?_⟩
    · intro _
      show snapshot_map A3 = snapshot_map (A3.map (fun c =>
        { c with neighbors := neighborCountAt grid (snapshot_map A3) c.position }))
      rw [snapshot_map_set_neighbors]
    · exact in_grid_set_neighbors grid A3 _ hinA3
    · show (coords_list (A3.map (fun c =>
        { c with neighbors := neighborCountAt grid (snapshot_map A3) c.position }))).Nodup
      rw [coords_list_set_neighbors]
      exact hndA3

lemma run_with_spatial_eq (grid : Grid) :
    ∀ (n : Nat) (s : EngineState), EngineInv grid s →
      run_generations_with spatial_index_strategy grid n s = run_generations grid n s := by
  intro n
  induction n with
  | zero => intro s _; rfl
  | succ n ih =>
    intro s hinv
    obtain ⟨heq, hinv2⟩ := schedule_run_with_spatial grid s hinv
    show run_generations_with spatial_index_strategy grid n
        (schedule_run_with spatial_index_strategy grid s) =
      run_generations grid n (schedule_run grid s)
    rw [heq]
    exact ih _ hinv2

lemma initial_state_inv (w h : Nat) (hw : w < 2 ^ 31) (hh : h < 2 ^ 31)
    (hwh : w * h < 2 ^ 32) : EngineInv ⟨w, h⟩ (initial_state w h) := by
  refine ⟨fun hc => absurd hc (by simp [initial_state]), ?_, ?_⟩
  · intro c hc
    have hb := (spawn_cells_mem_position w h (le_of_lt hw) (le_of_lt hh) hwh
      c.position).mp ⟨c, hc, rfl⟩
    show inGrid ⟨w, h⟩ (c.position.x, c.position.y)
    unfold inGrid
    dsimp only
    rw [toI32_small w hw, toI32_small h hh]
    exact hb
  · have hpos := spawn_cells_coords_nodup w h (le_of_lt hw) (le_of_lt hh) hwh
    show (coords_list (spawn_cells w h)).Nodup
    unfold coords_list
    have hmm : (spawn_cells w h).map (fun c => (c.position.x, c.position.y)) =
        ((spawn_cells w h).map Cell.position).map (fun p => (p.x, p.y)) := by
      rw [List.map_map]
      rfl
    rw [hmm]
    refine List.Nodup.map ?_ hpos
    rintro ⟨a1, a2⟩ ⟨b1, b2⟩ hab
    simp only [Prod.mk.injEq] at hab
    obtain ⟨ha, hb⟩ := hab
    subst ha
    subst hb
    rfl

/-- C1 (amended): (i) for any map with unique live keys inside the
i32-wrapped grid bounds, the spatial-index strategy and the dense-lookup
strategy return identical counts at every position; (ii) pointwise-equal
strategies drive the engine to identical states for any number of
generations (behavior is independent of the strategy chosen at
construction); (iii) the dense engine is the source engine; (iv) on grids
with dimensions strictly below `2^31` — where the source's `as i32` cast
of the bounds does not wrap — the spatial engine run from the real
initial state equals the source run for every generation count. At
dimensions `≥ 2^31` the equivalence fails (see the counterexample). -/
theorem strategy_equivalence :
    (∀ (grid : Grid) (m : CellPositionsMap) (pos : Position),
      (m.map Prod.fst).Nodup → (∀ q, aliveAt m q = true → inGrid grid q) →
      spatial_index_query_count (live_coords m) (pos.x, pos.y) =
        neighborCountAt grid m pos) ∧
    (∀ f g : Grid → CellPositionsMap → Position → Nat,
      (∀ (grid : Grid) (m : CellPositionsMap) (pos : Position), f grid m pos = g grid m pos) →
      ∀ (grid : Grid) (n : Nat) (s : EngineState),
        run_generations_with f grid n s = run_generations_with g grid n s) ∧
    (∀ (grid : Grid) (n : Nat) (s : EngineState),
      run_generations_with dense_lookup_strategy grid n s = run_generations grid n s) ∧
    (∀ width height : Nat, width < 2 ^ 31 → height < 2 ^ 31 → width * height < 2 ^ 32 →
      ∀ generations : Nat,
        run_generations_with spatial_index_strategy ⟨width, height⟩ generations
          (initial_state width height) = initRun width height generations) := by
  refine ⟨spatial_eq_dense, ?_, ?_, ?_⟩
  · intro f g hfg grid n
    induction n with
    | zero => intro s; rfl
    | succ n ih =>
      intro s
      show run_generations_with f grid n (schedule_run_with f grid s) =
        run_generations_with g grid n (schedule_run_with g grid s)
      have hstep : schedule_run_with f grid s = schedule_run_with g grid s := by
        unfold schedule_run_with
        have hu : ∀ t, update_neighbors_with f grid t = update_neighbors_with g grid t :=
          fun t => update_neighbors_with_congr f g grid t (fun pos => hfg grid _ pos)
        rw [hu, hu]
      rw [hstep]
      exact ih _
  · intro grid n
    induction n with
    | zero => intro s; rfl
    | succ n ih =>
      intro s
      show run_generations_with dense_lookup_strategy grid n
          (schedule_run_with dense_lookup_strategy grid s) =
        run_generations grid n (schedule_run grid s)
      rw [show schedule_run_with dense_lookup_strategy grid s = schedule_run grid s from rfl]
      exact ih _
  · intro w h hw hh hwh g
    exact run_with_spatial_eq ⟨w, h⟩ g _ (initial_state_inv w h hw hh hwh)

/-- Witness for C1: on a 2×2 grid, three generations of the
spatial-strategy engine land in exactly the state of the source run. -/
theorem strategy_equivalence_witness :
    run_generations_with spatial_index_strategy ⟨2, 2⟩ 3 (initial_state 2 2) =
      initRun 2 2 3 :=
  strategy_equivalence.2.2.2 2 2 (by norm_num) (by norm_num) (by norm_num) 3

/-- C3 counterexample: on a grid of width `2^31` (a legal u32 dimension
whose cell count does not overflow u32) the source's bound `width as i32`
wraps to `-2^31`, so the check fails for every coordinate: the cell at
`(1,0)` counts 0 even though 2 of its Moore offsets are alive. -/
theorem count_pass_wrapped_counterexample :
    neighborCountAt ⟨2 ^ 31, 1⟩
        [(((0 : Int), (0 : Int)), true), (((1 : Int), (0 : Int)), true),
          (((2 : Int), (0 : Int)), true)] ⟨1, 0⟩ = 0 ∧
    (mooreOffsets.filter (fun d =>
      aliveAt [(((0 : Int), (0 : Int)), true), (((1 : Int), (0 : Int)), true),
        (((2 : Int), (0 : Int)), true)] (1 + d.1, 0 + d.2))).length = 2 := by
  decide

/-- C1 counterexample: on a shared grid of width `2^31` the strategies
disagree — the dense lookup counts 0 at `(1,0)` because the wrapped bound
rejects every coordinate, while the spatial strategy (which has no grid
bound) counts the 2 live box neighbors; one generation of the two engines
then produces different states. -/
theorem strategy_equivalence_counterexample :
    spatial_index_query_count
        (live_coords [(((0 : Int), (0 : Int)), true), (((1 : Int), (0 : Int)), true),
          (((2 : Int), (0 : Int)), true)]) (1, 0) = 2 ∧
    neighborCountAt ⟨2 ^ 31, 1⟩
        [(((0 : Int), (0 : Int)), true), (((1 : Int), (0 : Int)), true),
          (((2 : Int), (0 : Int)), true)] ⟨1, 0⟩ = 0 ∧
    schedule_run_with spatial_index_strategy ⟨2 ^ 31, 1⟩
        ⟨[⟨⟨0, 0⟩, true, 0⟩, ⟨⟨1, 0⟩, true, 0⟩, ⟨⟨2, 0⟩, true, 0⟩], [], true⟩ ≠
      schedule_run ⟨2 ^ 31, 1⟩
        ⟨[⟨⟨0, 0⟩, true, 0⟩, ⟨⟨1, 0⟩, true, 0⟩, ⟨⟨2, 0⟩, true, 0⟩], [], true⟩ := by
  decide
